import Mathlib

/-!
Verification of the KiCAD 3D-model synchronization tool
(`kicad-model-sync-refactored.py`): a shallow embedding of the
model-classification, field-synchronization, reconciliation and
batch-pipeline logic, together with theorems settling the specified
properties.
-/

set_option maxRecDepth 4000

/-- Substring helper: `hasPre p s` is true when `p` is a prefix of `s`
(character lists), mirroring Python's startswith used to define `in`. -/
def hasPre : List Char → List Char → Bool
  | [], _ => true
  | _ :: _, [] => false
  | p :: ps, c :: cs => p == c && hasPre ps cs

/-- Substring helper: `hasSub tok s` is true when `tok` occurs as a
contiguous substring of `s`, mirroring Python's `tok in s`. -/
def hasSub (tok : List Char) : List Char → Bool
  | [] => tok.isEmpty
  | c :: cs => hasPre tok (c :: cs) || hasSub tok cs

/-- String containment: Python's `tok in s` on strings. -/
def strIn (tok s : String) : Bool := hasSub tok.data s.data

/-- POSIX `os.path.basename`: everything after the last `/`. -/
def basename (s : String) : String :=
  String.mk (s.data.foldl (fun acc c => if c == '/' then [] else acc ++ [c]) [])

/-- The third-party path token `$\x7bKICAD_3RD_PARTY\x7d`. -/
def thirdTok : String := "$\x7bKICAD_3RD_PARTY\x7d"

/-- The project-local path token `$\x7bKIPRJMOD\x7d`. -/
def projTok : String := "$\x7bKIPRJMOD\x7d"

/-- A 3-component coordinate vector (kiutils `Coordinate`).  The real-valued
components are embedded as rationals, preserving exact (bit-for-bit)
equality semantics of the comparison in the source. -/
structure Coordinate where
  X : Rat
  Y : Rat
  Z : Rat
deriving DecidableEq, Repr

/-- One 3D-model record of a footprint (kiutils `Model`): a path plus
spatial and rendering attributes. -/
structure Model where
  path : String
  pos : Coordinate
  scale : Coordinate
  rotate : Coordinate
  hide : Bool
  opacity : Rat
deriving DecidableEq, Repr

/-- A footprint, reduced to the part the synchronizer touches: its ordered
collection of model records. -/
structure Footprint where
  models : List Model
deriving DecidableEq, Repr

/-- Does the record's path contain the third-party token?  (First branch of
the classification loop.) -/
def isThird (m : Model) : Bool := strIn thirdTok m.path

/-- Is the record classified project-local?  The source's `elif` means a
path containing the third-party token is never tested for the project
token. -/
def isProj (m : Model) : Bool := !isThird m && strIn projTok m.path

/-- The classification loop of `sync_models` (source lines 33-37): scan the
records in order, remembering the index of the record most recently seen to
contain each token; an assignment in a later iteration overwrites an
earlier one. -/
def classifyLoop : List Model → Nat → Option Nat → Option Nat → Option Nat × Option Nat
  | [], _, tp, pj => (tp, pj)
  | m :: ms, i, tp, pj =>
    if strIn thirdTok m.path then classifyLoop ms (i + 1) (some i) pj
    else if strIn projTok m.path then classifyLoop ms (i + 1) tp (some i)
    else classifyLoop ms (i + 1) tp pj

/-- Classification of a footprint's model records into the (index of the)
third-party record and the project-local record. -/
def classify (models : List Model) : Option Nat × Option Nat :=
  classifyLoop models 0 none none

/-- The record created by the create path of `sync_models` (source lines
44-61): the project token, the fixed `3d-models/` subdirectory and the
basename of the third-party path, with all spatial/rendering fields copied
component-wise from the third-party record. -/
def newProjectModel (t : Model) : Model :=
  { path := projTok ++ "/3d-models/" ++ basename t.path
    pos := Coordinate.mk t.pos.X t.pos.Y t.pos.Z
    scale := Coordinate.mk t.scale.X t.scale.Y t.scale.Z
    rotate := Coordinate.mk t.rotate.X t.rotate.Y t.rotate.Z
    hide := t.hide
    opacity := t.opacity }

/-- The update path of `sync_models` (source lines 68-103): compare each of
the five fields of the project record `p` against the third-party record
`t`; overwrite an unequal field with a component-wise copy and set the
modified flag.  Returns the updated project record and the flag. -/
def syncFields (t p : Model) : Model × Bool :=
  let r0 : Model × Bool := (p, false)
  let r1 : Model × Bool :=
    if r0.1.pos ≠ t.pos then
      ({ r0.1 with pos := Coordinate.mk t.pos.X t.pos.Y t.pos.Z }, true) else r0
  let r2 : Model × Bool :=
    if r1.1.scale ≠ t.scale then
      ({ r1.1 with scale := Coordinate.mk t.scale.X t.scale.Y t.scale.Z }, true) else r1
  let r3 : Model × Bool :=
    if r2.1.rotate ≠ t.rotate then
      ({ r2.1 with rotate := Coordinate.mk t.rotate.X t.rotate.Y t.rotate.Z }, true) else r2
  let r4 : Model × Bool :=
    if r3.1.hide ≠ t.hide then ({ r3.1 with hide := t.hide }, true) else r3
  let r5 : Model × Bool :=
    if r4.1.opacity ≠ t.opacity then ({ r4.1 with opacity := t.opacity }, true) else r4
  r5

/-- The reconciler `sync_models`: returns the footprint after the in-place
mutation together with the modified verdict.  The inner `none` fallbacks
are unreachable: classification only returns indices of list elements. -/
def sync_models (footprint : Footprint) : Footprint × Bool :=
  if footprint.models.isEmpty then (footprint, false)
  else
    match classify footprint.models with
    | (none, _) => (footprint, false)
    | (some ti, pjOpt) =>
      match footprint.models[ti]? with
      | none => (footprint, false)
      | some t =>
        match pjOpt with
        | none => (Footprint.mk (footprint.models ++ [newProjectModel t]), true)
        | some pi =>
          match footprint.models[pi]? with
          | none => (footprint, false)
          | some p =>
            let r := syncFields t p
            (Footprint.mk (footprint.models.set pi r.1), r.2)

/-- Last-match specification of the classification: the index of the LAST
record of the list satisfying the predicate, or `none` when no record
does.  This is the behaviour the overwrite-without-break loop realizes. -/
def lastIdx (p : Model → Bool) : List Model → Option Nat
  | [] => none
  | m :: ms =>
    match lastIdx p ms with
    | some j => some (j + 1)
    | none => if p m then some 0 else none

/-- Accumulator combinator describing one component of the loop state: a
match inside the remaining list (at offset `i`) overrides the value
accumulated so far. -/
def shiftIdx (acc : Option Nat) (o : Option Nat) (i : Nat) : Option Nat :=
  match o with
  | some j => some (i + j)
  | none => acc

/-- The synchronized record the update path leaves in place: the project
record's path with the third-party record's five attribute fields. -/
def syncedModel (t p : Model) : Model :=
  { path := p.path, pos := t.pos, scale := t.scale, rotate := t.rotate
    hide := t.hide, opacity := t.opacity }

/-- One file of a batch as the pipeline sees it: either the document fails
to load (a parse error raised by `from_file`), or it loads to a footprint;
`saveFails` records whether a later `to_file` on this path would raise. -/
inductive FileInput where
  | loadFail (filepath : String)
  | ok (filepath : String) (fp : Footprint) (saveFails : Bool)
deriving DecidableEq, Repr

/-- Result of `process_footprint_file` for one file: its boolean return
value (did the file count as modified) and what was persisted to disk for
it, if anything. -/
structure ProcResult where
  counted : Bool
  wrote : Option (String × Footprint)
deriving DecidableEq, Repr

/-- The per-file driver `process_footprint_file` (source lines 107-132):
load, reconcile, persist when modified and not a dry run; any exception
from load or save is caught and the file reports unmodified. -/
def process_footprint_file (input : FileInput) (dry_run : Bool) : ProcResult :=
  match input with
  | .loadFail _ => ProcResult.mk false none
  | .ok filepath fp saveFails =>
    let r := sync_models fp
    if r.2 then
      if !dry_run then
        if saveFails then ProcResult.mk false none
        else ProcResult.mk true (some (filepath, r.1))
      else ProcResult.mk true none
    else ProcResult.mk false none

/-- The modified-file counter of `main` (source lines 175-178). -/
def countModified (files : List FileInput) (dry_run : Bool) : Nat :=
  files.foldl
    (fun acc f => if (process_footprint_file f dry_run).counted then acc + 1 else acc) 0

/-- The batch summary of `main`: total files found and files (that would
be) modified. -/
def runPipeline (files : List FileInput) (dry_run : Bool) : Nat × Nat :=
  (files.length, countModified files dry_run)

/-- Everything the batch persisted to disk, in processing order. -/
def writesOf (files : List FileInput) (dry_run : Bool) : List (String × Footprint) :=
  files.filterMap (fun f => (process_footprint_file f dry_run).wrote)

/-- The process exit status of `main` (source lines 169-171 and 184-186):
0 when no files were found, when nothing was modified or in dry-run mode;
1 when modifications were applied. -/
def main_exit (files : List FileInput) (dry_run : Bool) : Nat :=
  if files.isEmpty then 0
  else if countModified files dry_run > 0 && !dry_run then 1 else 0

/-- Concrete fixture: the create-correctness footprint of spec section 8, a
single third-party record at `$\x7bKICAD_3RD_PARTY\x7d/lib/part.step`. -/
def tC2 : Model :=
  Model.mk (thirdTok ++ "/lib/part.step") (Coordinate.mk 1 2 3) (Coordinate.mk 1 1 1)
    (Coordinate.mk 0 0 0) false 1

def fpC2 : Footprint := Footprint.mk [tC2]

/-- Concrete fixture: the update-correctness third-party record of spec
section 8, position (5,0,0). -/
def t8 : Model :=
  Model.mk (thirdTok ++ "/lib/part.step") (Coordinate.mk 5 0 0) (Coordinate.mk 1 1 1)
    (Coordinate.mk 0 0 0) false 1

/-- Concrete fixture: the matching project-local record, position (0,0,0),
all other fields equal to `t8`. -/
def p8 : Model :=
  Model.mk (projTok ++ "/3d-models/part.step") (Coordinate.mk 0 0 0) (Coordinate.mk 1 1 1)
    (Coordinate.mk 0 0 0) false 1

def fp8 : Footprint := Footprint.mk [t8, p8]

/-- Concrete fixture: two distinct third-party records in one footprint. -/
def cexA : Model :=
  Model.mk (thirdTok ++ "/a.step") (Coordinate.mk 1 2 3) (Coordinate.mk 1 1 1)
    (Coordinate.mk 0 0 0) false 1

def cexB : Model :=
  Model.mk (thirdTok ++ "/b.step") (Coordinate.mk 4 5 6) (Coordinate.mk 1 1 1)
    (Coordinate.mk 0 0 0) false 1

/-- Concrete fixture: a record whose whole path is the bare third-party
token, so the token survives into the basename. -/
def tokOnly : Model :=
  Model.mk thirdTok (Coordinate.mk 0 0 0) (Coordinate.mk 1 1 1)
    (Coordinate.mk 0 0 0) false 1

def fpTokOnly : Footprint := Footprint.mk [tokOnly]

/-- Concrete fixture: a record bearing no token at all. -/
def plainModel : Model :=
  Model.mk "plain.step" (Coordinate.mk 0 0 0) (Coordinate.mk 1 1 1)
    (Coordinate.mk 0 0 0) false 1

def fpPlain : Footprint := Footprint.mk [plainModel]

/-- Concrete fixture: a record whose path contains BOTH tokens. -/
def bothModel : Model :=
  Model.mk (thirdTok ++ "/" ++ projTok ++ "/part.step") (Coordinate.mk 1 2 3)
    (Coordinate.mk 1 1 1) (Coordinate.mk 0 0 0) false 1

def fpBoth : Footprint := Footprint.mk [plainModel, bothModel]

/-- Concrete fixture: a malformed document and a valid document needing an
update, as in the failure-isolation property of spec section 8. -/
def fileBad : FileInput := FileInput.loadFail "bad.kicad_mod"

def fileGood : FileInput := FileInput.ok "good.kicad_mod" fp8 false

theorem classifyLoop_eq (ms : List Model) : ∀ (i : Nat) (tp pj : Option Nat),
    classifyLoop ms i tp pj =
      (shiftIdx tp (lastIdx isThird ms) i, shiftIdx pj (lastIdx isProj ms) i) := by
  induction ms with
  | nil => intro i tp pj; rfl
  | cons m ms ih =>
    intro i tp pj
    by_cases h3 : strIn thirdTok m.path
    · have hT : isThird m = true := h3
      have hP : isProj m = false := by simp [isProj, hT]
      simp only [classifyLoop, h3, if_true, ih]
      cases hL : lastIdx isThird ms <;>
        cases hR : lastIdx isProj ms <;>
          simp [lastIdx, hL, hR, hT, hP, shiftIdx] <;> omega
    · have hT : isThird m = false := by simpa using h3
      by_cases hp : strIn projTok m.path
      · have hP : isProj m = true := by simp [isProj, hT, hp]
        simp only [classifyLoop, h3, hp, if_true, if_false, ih]
        cases hL : lastIdx isThird ms <;>
          cases hR : lastIdx isProj ms <;>
            simp [lastIdx, hL, hR, hT, hP, shiftIdx] <;> omega
      · have hp' : strIn projTok m.path = false := by simpa using hp
        have hP : isProj m = false := by simp [isProj, hT, hp']
        simp only [classifyLoop, h3, hp, if_false, ih]
        cases hL : lastIdx isThird ms <;>
          cases hR : lastIdx isProj ms <;>
            simp [lastIdx, hL, hR, hT, hP, shiftIdx] <;> omega

theorem classify_char (ms : List Model) :
    classify ms = (lastIdx isThird ms, lastIdx isProj ms) := by
  rw [classify, classifyLoop_eq]
  cases hL : lastIdx isThird ms <;> cases hR : lastIdx isProj ms <;> simp [shiftIdx]

theorem lastIdx_getElem (p : Model → Bool) (ms : List Model) (j : Nat)
    (h : lastIdx p ms = some j) : ∃ m, ms[j]? = some m ∧ p m = true := by
  induction ms generalizing j with
  | nil => simp [lastIdx] at h
  | cons m ms ih =>
    rw [lastIdx] at h
    cases hL : lastIdx p ms with
    | some j' =>
      rw [hL] at h
      obtain ⟨m', hm', hp'⟩ := ih j' hL
      cases h
      exact ⟨m', by simpa using hm', hp'⟩
    | none =>
      rw [hL] at h
      by_cases hm : p m
      · simp [hm] at h
        exact ⟨m, by simp [← h], hm⟩
      · simp [hm] at h

theorem lastIdx_none_iff (p : Model → Bool) (ms : List Model) :
    lastIdx p ms = none ↔ ∀ m ∈ ms, p m = false := by
  induction ms with
  | nil => simp [lastIdx]
  | cons m ms ih =>
    rw [lastIdx]
    cases hL : lastIdx p ms with
    | some j' => simp [← ih, hL]
    | none =>
      by_cases hm : p m <;> simp [hm, ← ih, hL]

theorem lastIdx_append_one (p : Model → Bool) (ms : List Model) (x : Model) :
    lastIdx p (ms ++ [x]) = if p x then some ms.length else lastIdx p ms := by
  induction ms with
  | nil =>
    by_cases hx : p x <;> simp [lastIdx, hx]
  | cons m ms ih =>
    rw [List.cons_append, lastIdx, ih]
    by_cases hx : p x
    · simp [hx]
    · simp [hx, lastIdx]

theorem lastIdx_set_congr (p : Model → Bool) (ms : List Model) (k : Nat) (x mk : Model)
    (hget : ms[k]? = some mk) (hsame : p x = p mk) :
    lastIdx p (ms.set k x) = lastIdx p ms := by
  induction ms generalizing k with
  | nil => simp at hget
  | cons m ms ih =>
    cases k with
    | zero =>
      simp at hget
      subst hget
      simp [List.set, lastIdx, hsame]
    | succ k' =>
      simp at hget
      simp [List.set, lastIdx, ih k' hget]

theorem lastIdx_ne (ms : List Model) (i j : Nat)
    (hi : lastIdx isThird ms = some i) (hj : lastIdx isProj ms = some j) : i ≠ j := by
  intro hij
  subst hij
  obtain ⟨m1, hg1, hp1⟩ := lastIdx_getElem _ _ _ hi
  obtain ⟨m2, hg2, hp2⟩ := lastIdx_getElem _ _ _ hj
  rw [hg1] at hg2
  cases hg2
  rw [isProj, hp1] at hp2
  simp at hp2

theorem Coordinate.eta (c : Coordinate) : Coordinate.mk c.X c.Y c.Z = c := rfl

theorem syncFields_fst (t p : Model) : (syncFields t p).1 = syncedModel t p := by
  by_cases h1 : p.pos = t.pos <;>
    by_cases h2 : p.scale = t.scale <;>
      by_cases h3 : p.rotate = t.rotate <;>
        by_cases h4 : p.hide = t.hide <;>
          by_cases h5 : p.opacity = t.opacity <;>
            simp [syncFields, syncedModel, h1, h2, h3, h4, h5, Coordinate.eta] <;>
              cases p <;> simp_all

theorem syncFields_snd (t p : Model) :
    (syncFields t p).2 =
      !(p.pos == t.pos && p.scale == t.scale && p.rotate == t.rotate &&
        p.hide == t.hide && p.opacity == t.opacity) := by
  by_cases h1 : p.pos = t.pos <;>
    by_cases h2 : p.scale = t.scale <;>
      by_cases h3 : p.rotate = t.rotate <;>
        by_cases h4 : p.hide = t.hide <;>
          by_cases h5 : p.opacity = t.opacity <;>
            simp [syncFields, h1, h2, h3, h4, h5]

theorem syncFields_path (t p : Model) : (syncFields t p).1.path = p.path := by
  rw [syncFields_fst]; rfl

theorem syncFields_synced (t p : Model) :
    syncFields t (syncedModel t p) = (syncedModel t p, false) := by
  simp [syncFields, syncedModel]

theorem sync_noThird (fp : Footprint) (h : lastIdx isThird fp.models = none) :
    sync_models fp = (fp, false) := by
  rw [sync_models, classify_char, h]
  by_cases he : fp.models.isEmpty <;> simp [he]

theorem sync_create (fp : Footprint) (ti : Nat) (t : Model)
    (h3 : lastIdx isThird fp.models = some ti) (ht : fp.models[ti]? = some t)
    (hp : lastIdx isProj fp.models = none) :
    sync_models fp = (Footprint.mk (fp.models ++ [newProjectModel t]), true) := by
  have hne : fp.models.isEmpty = false := by
    cases hm : fp.models with
    | nil => rw [hm] at ht; simp at ht
    | cons a l => simp [hm]
  rw [sync_models, classify_char, h3, hp, hne]
  simp [ht]

theorem sync_update (fp : Footprint) (ti pi : Nat) (t p : Model)
    (h3 : lastIdx isThird fp.models = some ti) (ht : fp.models[ti]? = some t)
    (hp : lastIdx isProj fp.models = some pi) (hpg : fp.models[pi]? = some p) :
    sync_models fp =
      (Footprint.mk (fp.models.set pi (syncFields t p).1), (syncFields t p).2) := by
  have hne : fp.models.isEmpty = false := by
    cases hm : fp.models with
    | nil => rw [hm] at ht; simp at ht
    | cons a l => simp [hm]
  rw [sync_models, classify_char, h3, hp, hne]
  simp [ht, hpg]

theorem hasPre_append (l r : List Char) : hasPre l (l ++ r) = true := by
  induction l with
  | nil => rfl
  | cons c cs ih => simp [hasPre, ih]

theorem hasSub_append_self (l r : List Char) : hasSub l (l ++ r) = true := by
  cases l with
  | nil => cases r <;> simp [hasSub, hasPre]
  | cons c cs =>
    rw [List.cons_append, hasSub]
    have h : hasPre (c :: cs) (c :: (cs ++ r)) = true := hasPre_append (c :: cs) r
    simp [h]

theorem strIn_append_self (tok s : String) : strIn tok (tok ++ s) = true := by
  rw [strIn, String.data_append]
  exact hasSub_append_self _ _

theorem newProjectModel_proj (t : Model) :
    strIn projTok (newProjectModel t).path = true := by
  have h : (newProjectModel t).path = projTok ++ ("/3d-models/" ++ basename t.path) := by
    rw [newProjectModel, ← String.append_assoc]
  rw [h]
  exact strIn_append_self _ _

theorem newProjectModel_eq_synced (t : Model) :
    newProjectModel t = syncedModel t (newProjectModel t) := rfl

theorem getElem?_lt {ms : List Model} {i : Nat} {m : Model} (h : ms[i]? = some m) :
    i < ms.length := by
  rcases List.getElem?_eq_some.mp h with ⟨hlt, _⟩
  exact hlt

/-- Claim C1 (corrected), counterexample to the claim as stated: in a
footprint with two third-party records, the first record does contain the
third-party token, yet classification binds index 1 (the later record),
not index 0 — the later record DOES change the binding. -/
theorem C1_first_match_refuted :
    strIn thirdTok cexA.path = true ∧ cexA ≠ cexB ∧
    (classify [cexA, cexB]).1 = some 1 ∧ (classify [cexA, cexB]).1 ≠ some 0 := by
  decide

/-- Claim C1 as amended: classification binds the LAST record whose path
contains the third-party token as the third-party record, and the LAST
record whose path contains the project token but not the third-party token
as the project-local record; a later matching record overwrites an earlier
binding.  (`lastIdx` is the last-match specification.) -/
theorem C1_classification_binds_last (models : List Model) :
    classify models = (lastIdx isThird models, lastIdx isProj models) :=
  classify_char models

/-- Claim C2: when classification finds a third-party record and no record
of the footprint contains the project token, reconciliation appends exactly
one record — project token, `3d-models/` subdirectory, basename of the
third-party path, all five attribute fields copied — and reports the
modified verdict; in particular the section-8 create scenario produces
`$\x7bKIPRJMOD\x7d/3d-models/part.step`. -/
theorem C2_create_correct (fp : Footprint) (ti : Nat) (t : Model)
    (h3 : (classify fp.models).1 = some ti) (ht : fp.models[ti]? = some t)
    (hnp : ∀ m ∈ fp.models, strIn projTok m.path = false) :
    sync_models fp = (Footprint.mk (fp.models ++ [newProjectModel t]), true) ∧
    (newProjectModel t).path = projTok ++ "/3d-models/" ++ basename t.path ∧
    (newProjectModel t).pos = t.pos ∧
    (newProjectModel t).scale = t.scale ∧
    (newProjectModel t).rotate = t.rotate ∧
    (newProjectModel t).hide = t.hide ∧
    (newProjectModel t).opacity = t.opacity ∧
    sync_models fpC2 =
      (Footprint.mk [tC2,
        Model.mk (projTok ++ "/3d-models/part.step") (Coordinate.mk 1 2 3)
          (Coordinate.mk 1 1 1) (Coordinate.mk 0 0 0) false 1], true) := by
  rw [classify_char] at h3
  have hPj : lastIdx isProj fp.models = none := by
    rw [lastIdx_none_iff]
    intro m hm
    simp [isProj, hnp m hm]
  exact ⟨sync_create fp ti t h3 ht hPj, rfl, rfl, rfl, rfl, rfl, rfl, by decide⟩

/-- Witness for C2 at the concrete section-8 create scenario. -/
theorem C2_witness :
    sync_models fpC2 = (Footprint.mk (fpC2.models ++ [newProjectModel tC2]), true) ∧
    (newProjectModel tC2).path = projTok ++ "/3d-models/" ++ basename tC2.path ∧
    (newProjectModel tC2).pos = tC2.pos ∧
    (newProjectModel tC2).scale = tC2.scale ∧
    (newProjectModel tC2).rotate = tC2.rotate ∧
    (newProjectModel tC2).hide = tC2.hide ∧
    (newProjectModel tC2).opacity = tC2.opacity ∧
    sync_models fpC2 =
      (Footprint.mk [tC2,
        Model.mk (projTok ++ "/3d-models/part.step") (Coordinate.mk 1 2 3)
          (Coordinate.mk 1 1 1) (Coordinate.mk 0 0 0) false 1], true) :=
  C2_create_correct fpC2 0 tC2 (by decide) (by decide)
    (by intro m hm; simp [fpC2] at hm; subst hm; decide)

/-- Claim C3: with both a third-party and a project-local record bound,
reconciliation replaces the project-local record by one carrying the
third-party attribute values (path untouched), each field compared by exact
equality, and the verdict is modified exactly when some field differed; in
the section-8 scenario only the position changes and the verdict is
modified. -/
theorem C3_update_correct (fp : Footprint) (ti pi : Nat) (t p : Model)
    (h3 : (classify fp.models).1 = some ti) (hpj : (classify fp.models).2 = some pi)
    (ht : fp.models[ti]? = some t) (hpg : fp.models[pi]? = some p) :
    (sync_models fp).1.models = fp.models.set pi (syncedModel t p) ∧
    (syncedModel t p).path = p.path ∧
    ((sync_models fp).2 = true ↔
      ¬(p.pos = t.pos ∧ p.scale = t.scale ∧ p.rotate = t.rotate ∧
        p.hide = t.hide ∧ p.opacity = t.opacity)) ∧
    sync_models fp8 =
      (Footprint.mk [t8, { p8 with pos := Coordinate.mk 5 0 0 }], true) := by
  rw [classify_char] at h3 hpj
  have hs := sync_update fp ti pi t p h3 ht hpj hpg
  rw [hs]
  refine ⟨by rw [syncFields_fst], rfl, ?_, by decide⟩
  rw [syncFields_snd]
  simp only [Bool.not_eq_true', Bool.not_eq_false]
  constructor
  · intro h hcon
    obtain ⟨h1, h2, h3', h4, h5⟩ := hcon
    simp [h1, h2, h3', h4, h5] at h
  · intro h
    by_contra hb
    simp only [Bool.not_eq_true] at hb
    simp only [Bool.not_eq_false] at hb
    apply h
    simp only [Bool.and_eq_true, beq_iff_eq] at hb
    exact ⟨hb.1.1.1.1, hb.1.1.1.2, hb.1.1.2, hb.1.2, hb.2⟩

/-- Witness for C3 at the concrete section-8 update scenario. -/
theorem C3_witness :
    (sync_models fp8).1.models = fp8.models.set 1 (syncedModel t8 p8) ∧
    (syncedModel t8 p8).path = p8.path ∧
    ((sync_models fp8).2 = true ↔
      ¬(p8.pos = t8.pos ∧ p8.scale = t8.scale ∧ p8.rotate = t8.rotate ∧
        p8.hide = t8.hide ∧ p8.opacity = t8.opacity)) ∧
    sync_models fp8 =
      (Footprint.mk [t8, { p8 with pos := Coordinate.mk 5 0 0 }], true) :=
  C3_update_correct fp8 0 1 t8 p8 (by decide) (by decide) (by decide) (by decide)

/-- Claim C5: when no record's path contains the third-party token —
including the empty model collection — reconciliation returns the
unmodified verdict and leaves the footprint untouched. -/
theorem C5_no_third_party_frame (fp : Footprint)
    (h : ∀ m ∈ fp.models, strIn thirdTok m.path = false) :
    sync_models fp = (fp, false) := by
  apply sync_noThird
  rw [lastIdx_none_iff]
  intro m hm
  exact h m hm

/-- Witness for C5 on a footprint with a single token-free record. -/
theorem C5_witness : sync_models fpPlain = (fpPlain, false) :=
  C5_no_third_party_frame fpPlain
    (by intro m hm; simp [fpPlain] at hm; subst hm; decide)

/-- Claim C6: reconciliation never mutates the third-party record: the list
entry at the bound third-party index is unchanged by both the create path
and the update path. -/
theorem C6_third_party_not_mutated (fp : Footprint) (ti : Nat) (t : Model)
    (h3 : (classify fp.models).1 = some ti) (ht : fp.models[ti]? = some t) :
    (sync_models fp).1.models[ti]? = some t := by
  rw [classify_char] at h3
  cases hPj : lastIdx isProj fp.models with
  | none =>
    rw [sync_create fp ti t h3 ht hPj]
    exact (List.getElem?_append_left (getElem?_lt ht)).trans ht
  | some pi =>
    obtain ⟨p, hpg, _⟩ := lastIdx_getElem _ _ _ hPj
    rw [sync_update fp ti pi t p h3 ht hPj hpg]
    have hne : pi ≠ ti := Ne.symm (lastIdx_ne _ _ _ h3 hPj)
    exact (List.getElem?_set_ne hne).trans ht

/-- Witness for C6 at the concrete update scenario. -/
theorem C6_witness : (sync_models fp8).1.models[0]? = some t8 :=
  C6_third_party_not_mutated fp8 0 t8 (by decide) (by decide)

/-- Claim C7: the process exit status is 0 exactly when no file was
modified or a dry run was requested, and 1 exactly when dry-run is off and
at least one file was modified. -/
theorem C7_exit_status (files : List FileInput) (dry_run : Bool) :
    (main_exit files dry_run = 0 ↔
      (countModified files dry_run = 0 ∨ dry_run = true)) ∧
    (main_exit files dry_run = 1 ↔
      (dry_run = false ∧ 0 < countModified files dry_run)) := by
  cases files with
  | nil =>
    have h0 : countModified [] dry_run = 0 := rfl
    simp [main_exit, h0]
  | cons f fs =>
    simp only [main_exit, List.isEmpty_cons, Bool.false_eq_true, if_false]
    cases dry_run <;>
      by_cases hc : countModified (f :: fs) true = 0 <;>
        by_cases hc' : countModified (f :: fs) false = 0 <;>
          simp [hc, hc'] <;> omega

/-- Claim C8: a per-file load failure (and a save failure) is absorbed at
the pipeline boundary — the file reports unmodified and nothing is written
for it — and the concrete one-malformed-plus-one-valid batch yields total 2,
modified 1, with exactly the valid file persisted. -/
theorem C8_failure_isolation :
    (∀ (filepath : String) (dry_run : Bool),
        process_footprint_file (FileInput.loadFail filepath) dry_run =
          ProcResult.mk false none) ∧
    (∀ (filepath : String) (fp : Footprint),
        process_footprint_file (FileInput.ok filepath fp true) false =
          ProcResult.mk false none) ∧
    runPipeline [fileBad, fileGood] false = (2, 1) ∧
    writesOf [fileBad, fileGood] false =
      [("good.kicad_mod", Footprint.mk [t8, { p8 with pos := Coordinate.mk 5 0 0 }])] := by
  refine ⟨fun filepath dry_run => rfl, fun filepath fp => ?_, by decide, by decide⟩
  cases h : (sync_models fp).2 <;> simp [process_footprint_file, h]

/-- Claim C9: for a file whose reconciliation reports modified, a dry run
counts the file as modified but writes nothing, while a wet run persists
the reconciled document to the original path. -/
theorem C9_dry_run_non_persistence (filepath : String) (fp : Footprint)
    (h : (sync_models fp).2 = true) :
    process_footprint_file (FileInput.ok filepath fp false) true =
      ProcResult.mk true none ∧
    process_footprint_file (FileInput.ok filepath fp false) false =
      ProcResult.mk true (some (filepath, (sync_models fp).1)) := by
  constructor <;> simp [process_footprint_file, h]

/-- Witness for C9 at the concrete update scenario. -/
theorem C9_witness :
    process_footprint_file (FileInput.ok "good.kicad_mod" fp8 false) true =
      ProcResult.mk true none ∧
    process_footprint_file (FileInput.ok "good.kicad_mod" fp8 false) false =
      ProcResult.mk true (some ("good.kicad_mod", (sync_models fp8).1)) :=
  C9_dry_run_non_persistence "good.kicad_mod" fp8 (by decide)

/-- Claim C10: a record containing the third-party token is never a
project-local candidate (the elif), so a footprint whose only token-bearing
record carries both tokens takes the create path and appends a new
project-local record. -/
theorem C10_both_tokens_create (m : Model) (h : strIn thirdTok m.path = true) :
    isProj m = false ∧
    sync_models fpBoth =
      (Footprint.mk (fpBoth.models ++ [newProjectModel bothModel]), true) := by
  constructor
  · simp [isProj, isThird, h]
  · decide

/-- Witness for C10 at the both-token record. -/
theorem C10_witness :
    isProj bothModel = false ∧
    sync_models fpBoth =
      (Footprint.mk (fpBoth.models ++ [newProjectModel bothModel]), true) :=
  C10_both_tokens_create bothModel (by decide)

/-- Claim C4 (corrected), counterexample to idempotence as stated: when the
third-party path is the bare token, the created record's path also contains
the third-party token, is classified third-party on the second run, and a
second record is appended — the second run reports modified again. -/
theorem C4_not_idempotent_cex :
    (sync_models fpTokOnly).2 = true ∧
    (sync_models (sync_models fpTokOnly).1).2 = true := by
  decide

/-- Claim C4 as amended: reconciliation is idempotent provided that, on the
create path, the derived project-local path does not itself contain the
third-party token (true whenever the basename of the bound third-party
path is token-free); running reconcile twice then yields the unmodified
verdict on the second run. -/
theorem C4_idempotent_amended (fp : Footprint)
    (hsafe : ∀ ti t, classify fp.models = (some ti, none) →
        fp.models[ti]? = some t → strIn thirdTok (newProjectModel t).path = false) :
    (sync_models (sync_models fp).1).2 = false := by
  cases hL : lastIdx isThird fp.models with
  | none =>
    rw [sync_noThird fp hL, sync_noThird fp hL]
  | some ti =>
    obtain ⟨t, ht, htd⟩ := lastIdx_getElem _ _ _ hL
    cases hPj : lastIdx isProj fp.models with
    | none =>
      have hnew : strIn thirdTok (newProjectModel t).path = false := by
        apply hsafe ti t _ ht
        rw [classify_char, hL, hPj]
      rw [sync_create fp ti t hL ht hPj]
      have hT' : isThird (newProjectModel t) = false := hnew
      have hP' : isProj (newProjectModel t) = true := by
        simp [isProj, hT', newProjectModel_proj]
      have hL' : lastIdx isThird (fp.models ++ [newProjectModel t]) = some ti := by
        rw [lastIdx_append_one, hT', hL]
        simp
      have hPj' : lastIdx isProj (fp.models ++ [newProjectModel t]) =
          some fp.models.length := by
        rw [lastIdx_append_one, hP']
        simp
      have ht' : (fp.models ++ [newProjectModel t])[ti]? = some t :=
        (List.getElem?_append_left (getElem?_lt ht)).trans ht
      have hg' : (fp.models ++ [newProjectModel t])[fp.models.length]? =
          some (newProjectModel t) := List.getElem?_concat_length _ _
      rw [sync_update (Footprint.mk (fp.models ++ [newProjectModel t])) ti
        fp.models.length t (newProjectModel t) hL' ht' hPj' hg']
      exact congrArg Prod.snd (syncFields_synced t (newProjectModel t))
    | some pi =>
      obtain ⟨p, hpg, hpp⟩ := lastIdx_getElem _ _ _ hPj
      rw [sync_update fp ti pi t p hL ht hPj hpg]
      have hqs : (syncFields t p).1 = syncedModel t p := syncFields_fst t p
      have hc3 : isThird (syncFields t p).1 = isThird p := by
        simp [isThird, hqs, syncedModel]
      have hcp : isProj (syncFields t p).1 = isProj p := by
        simp [isProj, isThird, hqs, syncedModel]
      have hL2 : lastIdx isThird (fp.models.set pi (syncFields t p).1) = some ti :=
        (lastIdx_set_congr isThird fp.models pi _ p hpg hc3).trans hL
      have hPj2 : lastIdx isProj (fp.models.set pi (syncFields t p).1) = some pi :=
        (lastIdx_set_congr isProj fp.models pi _ p hpg hcp).trans hPj
      have htne : ti ≠ pi := lastIdx_ne _ _ _ hL hPj
      have ht2 : (fp.models.set pi (syncFields t p).1)[ti]? = some t :=
        (List.getElem?_set_ne (Ne.symm htne)).trans ht
      have hg2 : (fp.models.set pi (syncFields t p).1)[pi]? = some (syncFields t p).1 :=
        List.getElem?_set_self (getElem?_lt hpg)
      rw [sync_update (Footprint.mk (fp.models.set pi (syncFields t p).1)) ti pi t
        (syncFields t p).1 hL2 ht2 hPj2 hg2, hqs]
      exact congrArg Prod.snd (syncFields_synced t p)

/-- Witness for the amended C4 at the concrete create scenario, whose
third-party basename is token-free. -/
theorem C4_witness : (sync_models (sync_models fpC2).1).2 = false :=
  C4_idempotent_amended fpC2 (by
    intro ti t h1 h2
    have hc : classify fpC2.models = (some 0, none) := by decide
    rw [hc] at h1
    have hti : ti = 0 := by
      have h1f := congrArg Prod.fst h1
      simp at h1f
      omega
    subst hti
    have htt : t = tC2 := by simpa [fpC2, tC2] using h2.symm
    subst htt
    decide)
